import Mathlib

/-!
Shallow embedding of the gogl rendering core: the pipeline state manager
(`pkg/pipeline`) and the GPU resource layer (`pkg/resource`).  Pure Go
functions become Lean functions; the mutable graphics context is modelled as
the trace of emitted driver calls, and the GL name generator (`gl.GenBuffers`
/ `gl.GenVertexArrays`, which return fresh non-zero names on a live context)
is modelled as an explicit counter threaded through allocations.
-/

namespace GoGL

/-- Blend factors (`pipeline.BlendFunc`). -/
inductive BlendFunc where
  | zero | one | srcColor | oneMinusSrcColor | dstColor | oneMinusDstColor
  | srcAlpha | oneMinusSrcAlpha | dstAlpha | oneMinusDstAlpha
deriving DecidableEq, Repr

/-- Face culling modes (`pipeline.CullFace`); `none` is the zero value `CullNone`. -/
inductive CullFace where
  | none | front | back
deriving DecidableEq, Repr

/-- Depth comparison functions (`pipeline.DepthFunc`). -/
inductive DepthFunc where
  | never | less | equal | lessEq | greater | notEqual | greaterEq | always
deriving DecidableEq, Repr

/-- Primitive types (`pipeline.Primitive`). -/
inductive Primitive where
  | points | lines | lineLoop | lineStrip | triangles | triangleStrip | triangleFan
deriving DecidableEq, Repr

/-- `pipeline.State`: the complete rendering state.  A `*shader.Program` is
borrowed and compared only through its `ID` field, so it is embedded as the
optional identity `Option Nat` (`none` is a nil pointer).  `int32` scalar
fields become `Int` (no arithmetic is performed on them in this layer). -/
structure State where
  Program : Option Nat
  BlendEnabled : Bool
  BlendSrc : BlendFunc
  BlendDst : BlendFunc
  DepthEnabled : Bool
  DepthWrite : Bool
  DepthFunc : GoGL.DepthFunc
  CullEnabled : Bool
  CullFace : GoGL.CullFace
  ViewportX : Int
  ViewportY : Int
  ViewportWidth : Int
  ViewportHeight : Int
  WireframeMode : Bool
  Primitive : GoGL.Primitive
deriving DecidableEq, Repr

/-- `pipeline.DefaultState`. -/
def DefaultState : State :=
  { Program := Option.none
    BlendEnabled := false
    BlendSrc := .srcAlpha
    BlendDst := .oneMinusSrcAlpha
    DepthEnabled := true
    DepthWrite := true
    DepthFunc := .less
    CullEnabled := true
    CullFace := .back
    ViewportX := 0
    ViewportY := 0
    ViewportWidth := 800
    ViewportHeight := 600
    WireframeMode := false
    Primitive := .triangles }

/-- One call emitted to the graphics context by the pipeline layer
(`gl.Enable`, `gl.BlendFunc`, ...).  The modelled context is the trace of
these calls. -/
inductive GLCall where
  | useProgram (id : Nat)
  | enableBlend
  | disableBlend
  | blendFunc (src dst : BlendFunc)
  | enableDepthTest
  | disableDepthTest
  | depthFunc (f : DepthFunc)
  | depthMask (w : Bool)
  | enableCullFace
  | disableCullFace
  | cullFace (f : CullFace)
  | viewport (x y w h : Int)
  | polygonModeLine
  | polygonModeFill
deriving DecidableEq, Repr

/-- `pipeline.Pipeline`: current state, save stack, and the diff cache.
Go keeps `currentState *State` and stack entries as pointers to value
copies; all observations in this layer are by value, so states are stored
by value. -/
structure Pipeline where
  currentState : State
  stateStack : List State
  lastProgramID : Nat
  lastBlendState : Bool
  lastDepthState : Bool
  lastCullState : Bool
deriving DecidableEq, Repr

/-- `pipeline.New()`: default state, empty stack, zero-valued diff cache. -/
def Pipeline.New : Pipeline :=
  { currentState := DefaultState
    stateStack := []
    lastProgramID := 0
    lastBlendState := false
    lastDepthState := false
    lastCullState := false }

/-- Program section of `Pipeline.SetState`: `state.Program != nil &&
p.lastProgramID != state.Program.ID` guards `Use()` and the cache write. -/
def progSection (p : Pipeline) (s : State) : List GLCall × Nat :=
  match s.Program with
  | some id => if p.lastProgramID ≠ id then ([GLCall.useProgram id], id) else ([], p.lastProgramID)
  | Option.none => ([], p.lastProgramID)

/-- Blend section of `Pipeline.SetState`: transition on flag change, else
re-issue `gl.BlendFunc` while enabled. -/
def blendSection (p : Pipeline) (s : State) : List GLCall × Bool :=
  if p.lastBlendState ≠ s.BlendEnabled then
    (if s.BlendEnabled then
      [GLCall.enableBlend, GLCall.blendFunc s.BlendSrc s.BlendDst]
     else [GLCall.disableBlend], s.BlendEnabled)
  else
    (if s.BlendEnabled then [GLCall.blendFunc s.BlendSrc s.BlendDst] else [], p.lastBlendState)

/-- Depth section of `Pipeline.SetState`. -/
def depthSection (p : Pipeline) (s : State) : List GLCall × Bool :=
  if p.lastDepthState ≠ s.DepthEnabled then
    (if s.DepthEnabled then
      [GLCall.enableDepthTest, GLCall.depthFunc s.DepthFunc, GLCall.depthMask s.DepthWrite]
     else [GLCall.disableDepthTest], s.DepthEnabled)
  else
    (if s.DepthEnabled then [GLCall.depthFunc s.DepthFunc, GLCall.depthMask s.DepthWrite] else [],
     p.lastDepthState)

/-- Cull section of `Pipeline.SetState`: on a flag transition, enable only
when `CullEnabled && CullFace != CullNone`, otherwise disable; with no
transition, re-issue `gl.CullFace` only when enabled with a concrete face. -/
def cullSection (p : Pipeline) (s : State) : List GLCall × Bool :=
  if p.lastCullState ≠ s.CullEnabled then
    (if s.CullEnabled ∧ s.CullFace ≠ CullFace.none then
      [GLCall.enableCullFace, GLCall.cullFace s.CullFace]
     else [GLCall.disableCullFace], s.CullEnabled)
  else
    (if s.CullEnabled ∧ s.CullFace ≠ CullFace.none then [GLCall.cullFace s.CullFace] else [],
     p.lastCullState)

/-- Unconditional tail of `Pipeline.SetState`: viewport and polygon mode. -/
def tailSection (s : State) : List GLCall :=
  [GLCall.viewport s.ViewportX s.ViewportY s.ViewportWidth s.ViewportHeight,
   if s.WireframeMode then GLCall.polygonModeLine else GLCall.polygonModeFill]

/-- The non-nil path of `Pipeline.SetState`: returns the updated pipeline and
the trace of emitted context calls, in program/blend/depth/cull/viewport/
polygon-mode order as in the source. -/
def Pipeline.setStateApply (p : Pipeline) (s : State) : Pipeline × List GLCall :=
  ({ currentState := s
     stateStack := p.stateStack
     lastProgramID := (progSection p s).2
     lastBlendState := (blendSection p s).2
     lastDepthState := (depthSection p s).2
     lastCullState := (cullSection p s).2 },
   (progSection p s).1 ++ (blendSection p s).1 ++ (depthSection p s).1 ++
     (cullSection p s).1 ++ tailSection s)

/-- Errors reported by the pipeline (Go returns `fmt.Errorf` values; the spec
names them `NilArgument` and `EmptyStackFailure`). -/
inductive PipelineError where
  | nilState
  | emptyStack
deriving DecidableEq, Repr

/-- `Pipeline.SetState` with the nil-state guard; the argument is
`Option State` because Go passes `*State`. -/
def Pipeline.SetState (p : Pipeline) (s : Option State) :
    Except PipelineError (Pipeline × List GLCall) :=
  match s with
  | Option.none => .error .nilState
  | some st => .ok (p.setStateApply st)

/-- `Pipeline.GetState`. -/
def Pipeline.GetState (p : Pipeline) : State := p.currentState

/-- `Pipeline.PushState`: appends a by-value copy of the current state. -/
def Pipeline.PushState (p : Pipeline) : Pipeline :=
  { p with stateStack := p.stateStack ++ [p.currentState] }

/-- `Pipeline.PopState`: error on an empty stack; otherwise remove the last
saved state and re-apply it through the `SetState` diff path. -/
def Pipeline.PopState (p : Pipeline) : Except PipelineError (Pipeline × List GLCall) :=
  match p.stateStack.getLast? with
  | Option.none => .error .emptyStack
  | some st => .ok (({ p with stateStack := p.stateStack.dropLast }).setStateApply st)

/-- `Pipeline.SetProgram`: rebind and cache on a new non-nil identity;
explicitly clear the cached identity on nil (when it was non-zero). -/
def Pipeline.SetProgram (p : Pipeline) (prog : Option Nat) : Pipeline × List GLCall :=
  match prog with
  | some id =>
    if p.lastProgramID ≠ id then
      ({ p with currentState := { p.currentState with Program := some id }, lastProgramID := id },
       [GLCall.useProgram id])
    else (p, [])
  | Option.none =>
    if p.lastProgramID ≠ 0 then
      ({ p with currentState := { p.currentState with Program := Option.none }, lastProgramID := 0 },
       [])
    else (p, [])

/-- `Pipeline.SetBlending` (does not touch the diff cache). -/
def Pipeline.SetBlending (p : Pipeline) (enabled : Bool) (src dst : BlendFunc) :
    Pipeline × List GLCall :=
  ({ p with currentState :=
      { p.currentState with BlendEnabled := enabled, BlendSrc := src, BlendDst := dst } },
   if enabled then [GLCall.enableBlend, GLCall.blendFunc src dst] else [GLCall.disableBlend])

/-- `Pipeline.SetDepthTest` (does not touch the diff cache). -/
def Pipeline.SetDepthTest (p : Pipeline) (enabled write : Bool) (fn : DepthFunc) :
    Pipeline × List GLCall :=
  ({ p with currentState :=
      { p.currentState with DepthEnabled := enabled, DepthWrite := write, DepthFunc := fn } },
   if enabled then [GLCall.enableDepthTest, GLCall.depthFunc fn, GLCall.depthMask write]
   else [GLCall.disableDepthTest])

/-- `Pipeline.SetCulling`: enables only when `enabled && face != CullNone`,
otherwise disables (does not touch the diff cache). -/
def Pipeline.SetCulling (p : Pipeline) (enabled : Bool) (face : CullFace) :
    Pipeline × List GLCall :=
  ({ p with currentState :=
      { p.currentState with CullEnabled := enabled, CullFace := face } },
   if enabled ∧ face ≠ CullFace.none then [GLCall.enableCullFace, GLCall.cullFace face]
   else [GLCall.disableCullFace])

/-- `Pipeline.SetViewport`. -/
def Pipeline.SetViewport (p : Pipeline) (x y w h : Int) : Pipeline × List GLCall :=
  ({ p with currentState :=
      { p.currentState with ViewportX := x, ViewportY := y, ViewportWidth := w, ViewportHeight := h } },
   [GLCall.viewport x y w h])

/-- `Pipeline.SetWireframe`. -/
def Pipeline.SetWireframe (p : Pipeline) (enabled : Bool) : Pipeline × List GLCall :=
  ({ p with currentState := { p.currentState with WireframeMode := enabled } },
   [if enabled then GLCall.polygonModeLine else GLCall.polygonModeFill])

/-- Validation errors (`State.Validate` returns `fmt.Errorf` values; the
spec names them `InvalidViewport` and `InvalidBlendFunction`). -/
inductive ValidationError where
  | invalidViewport
  | invalidBlendFunction
deriving DecidableEq, Repr

/-- `State.Validate`: viewport check first, then the zero-zero blend factor
check; reads `s` only (the Go receiver is never written). -/
def State.Validate (s : State) : Option ValidationError :=
  if s.ViewportWidth ≤ 0 ∨ s.ViewportHeight ≤ 0 then some .invalidViewport
  else if s.BlendEnabled ∧ s.BlendSrc = BlendFunc.zero ∧ s.BlendDst = BlendFunc.zero then
    some .invalidBlendFunction
  else Option.none

/-- One pipeline mutation performed between `PushState` and `PopState`
(claim C4's set of operations; `setState` carries a non-nil state). -/
inductive Mutation where
  | setState (s : State)
  | setBlending (enabled : Bool) (src dst : BlendFunc)
  | setDepthTest (enabled write : Bool) (fn : DepthFunc)
  | setCulling (enabled : Bool) (face : CullFace)
  | setViewport (x y w h : Int)
  | setWireframe (enabled : Bool)
  | setProgram (prog : Option Nat)
deriving DecidableEq, Repr

/-- Run one mutation, keeping only the resulting pipeline. -/
def runMutation (p : Pipeline) : Mutation → Pipeline
  | .setState s => (p.setStateApply s).1
  | .setBlending e src dst => (p.SetBlending e src dst).1
  | .setDepthTest e w fn => (p.SetDepthTest e w fn).1
  | .setCulling e f => (p.SetCulling e f).1
  | .setViewport x y w h => (p.SetViewport x y w h).1
  | .setWireframe e => (p.SetWireframe e).1
  | .setProgram prog => (p.SetProgram prog).1

/-- Run a sequence of mutations. -/
def runMutations (p : Pipeline) (ms : List Mutation) : Pipeline :=
  ms.foldl runMutation p

/-- Cull-enable bit of the modelled graphics context after a trace of calls,
starting from context state `g` (`gl.Enable`/`gl.Disable` of `GL_CULL_FACE`
are the only calls that change it). -/
def cullEnabledAfter (g : Bool) : List GLCall → Bool
  | [] => g
  | GLCall.enableCullFace :: rest => cullEnabledAfter true rest
  | GLCall.disableCullFace :: rest => cullEnabledAfter false rest
  | _ :: rest => cullEnabledAfter g rest

/-- Buffer usage hints (`resource.BufferUsage`). -/
inductive BufferUsage where
  | StaticDraw | DynamicDraw | StreamDraw
deriving DecidableEq, Repr

/-- Buffer binding targets (`resource.BufferTarget`). -/
inductive BufferTarget where
  | ArrayBuffer | ElementArrayBuffer | UniformBufferTarget | ShaderStorageBufferTarget
deriving DecidableEq, Repr

/-- `resource.Buffer`: GL name, target, byte size (Go `int`), usage. -/
structure Buffer where
  ID : Nat
  Target : BufferTarget
  Size : Int
  Usage : BufferUsage
deriving DecidableEq, Repr

/-- Element width stored in an `IndexBuffer` (`gl.UNSIGNED_INT` /
`gl.UNSIGNED_SHORT`). -/
inductive IndexElemType where
  | unsignedInt | unsignedShort
deriving DecidableEq, Repr

/-- `resource.VertexBuffer`: embeds `*Buffer`. -/
structure VertexBuffer extends Buffer
deriving DecidableEq, Repr

/-- `resource.IndexBuffer`: embeds `*Buffer` plus element count and width. -/
structure IndexBuffer extends Buffer where
  Count : Nat
  IndexType : IndexElemType
deriving DecidableEq, Repr

/-- Buffer-level context calls for `Update` traces. -/
inductive BufCall where
  | bufferSubData (target : BufferTarget) (offset size : Int)
deriving DecidableEq, Repr

/-- The error of `Buffer.Update` (the spec's `RangeFailure`). -/
inductive UpdateError where
  | rangeFailure
deriving DecidableEq, Repr

/-- `Buffer.Update(offset, data, size)`: rejects `offset+size > b.Size`,
otherwise uploads via `gl.BufferSubData` (the data pointer itself carries no
observable state here, so only the trace is returned). -/
def Buffer.Update (b : Buffer) (offset size : Int) : Except UpdateError (List BufCall) :=
  if offset + size > b.Size then .error .rangeFailure
  else .ok [BufCall.bufferSubData b.Target offset size]

/-- `VertexBuffer.UpdateFloat32`: empty input returns nil before any
capacity check or upload; otherwise defers to `Buffer.Update` with
`size = 4*len`.  The (possibly mutated) receiver is returned alongside. -/
def VertexBuffer.UpdateFloat32 (v : VertexBuffer) (offset : Int) (data : List Float) :
    VertexBuffer × Except UpdateError (List BufCall) :=
  let size : Int := (data.length : Int) * 4
  if data.length = 0 then (v, .ok [])
  else (v, v.toBuffer.Update offset size)

/-- `IndexBuffer.UpdateUint32`: empty input returns nil before the `Count`
write, the capacity check and the upload; otherwise `Count` is set first and
`Buffer.Update` runs with `size = 4*len`. -/
def IndexBuffer.UpdateUint32 (i : IndexBuffer) (offset : Int) (data : List Nat) :
    IndexBuffer × Except UpdateError (List BufCall) :=
  let size : Int := (data.length : Int) * 4
  if data.length = 0 then (i, .ok [])
  else
    let i' := { i with Count := data.length }
    (i', i'.toBuffer.Update offset size)

/-- `IndexBuffer.UpdateUint16`: empty input returns nil before the `Count`
and `IndexType` writes, the capacity check and the upload; otherwise both
fields are set and `Buffer.Update` runs with `size = 2*len`. -/
def IndexBuffer.UpdateUint16 (i : IndexBuffer) (offset : Int) (data : List Nat) :
    IndexBuffer × Except UpdateError (List BufCall) :=
  let size : Int := (data.length : Int) * 2
  if data.length = 0 then (i, .ok [])
  else
    let i' := { i with Count := data.length, IndexType := IndexElemType.unsignedShort }
    (i', i'.toBuffer.Update offset size)

/-- `resource.BufferPool`: available buffers per target, in-use buffers keyed
by GL name.  The Go maps become a function `BufferTarget → List Buffer`
(missing key = empty slice) and an ID-keyed list; `nextID` models the GL
name generator (`gl.GenBuffers` yields fresh non-zero names on a live
context, so `createBuffer` always succeeds here). -/
structure BufferPool where
  availableBuffers : BufferTarget → List Buffer
  inUseBuffers : List Buffer
  nextID : Nat

/-- `resource.NewBufferPool`: both sets empty; names start at 1. -/
def NewBufferPool : BufferPool :=
  { availableBuffers := fun _ => [], inUseBuffers := [], nextID := 1 }

/-- Write one target's slice of the available map. -/
def setAvail (f : BufferTarget → List Buffer) (t : BufferTarget) (l : List Buffer) :
    BufferTarget → List Buffer :=
  fun t' => if t' = t then l else f t'

/-- Go map assignment `m[b.ID] = b`: overwrite the entry with the same key,
or append. -/
def mapInsert (m : List Buffer) (b : Buffer) : List Buffer :=
  if m.any (fun x => x.ID = b.ID) then m.map (fun x => if x.ID = b.ID then b else x)
  else m ++ [b]

/-- The scan loop of `BufferPool.Acquire`: first buffer with `Size >= size`
and matching usage, returned with the remaining list
(`append(buffers[:i], buffers[i+1:]...)`). -/
def scanAvail (size : Int) (usage : BufferUsage) : List Buffer → Option (Buffer × List Buffer)
  | [] => Option.none
  | b :: rest =>
    if b.Size ≥ size ∧ b.Usage = usage then some (b, rest)
    else
      match scanAvail size usage rest with
      | some (f, r) => some (f, b :: r)
      | Option.none => Option.none

/-- `BufferPool.Acquire`: first-fit scan of the target's available slice; on
a hit move the buffer to in-use, on a miss create a fresh buffer (modelled
with the `nextID` name counter) and put it in-use. -/
def BufferPool.Acquire (p : BufferPool) (target : BufferTarget) (size : Int)
    (usage : BufferUsage) : Buffer × BufferPool :=
  match scanAvail size usage (p.availableBuffers target) with
  | some (buf, rest) =>
    (buf, { p with availableBuffers := setAvail p.availableBuffers target rest
                   inUseBuffers := mapInsert p.inUseBuffers buf })
  | Option.none =>
    let buffer : Buffer := { ID := p.nextID, Target := target, Size := size, Usage := usage }
    (buffer, { p with inUseBuffers := mapInsert p.inUseBuffers buffer
                      nextID := p.nextID + 1 })

/-- `BufferPool.Release`: guard zeroed handles (the Go nil guard is the same
early return), delete from the in-use map by ID, append to the buffer's own
target slice. -/
def BufferPool.Release (p : BufferPool) (buffer : Buffer) : BufferPool :=
  if buffer.ID = 0 then p
  else
    { p with inUseBuffers := p.inUseBuffers.filter (fun x => x.ID ≠ buffer.ID)
             availableBuffers :=
               setAvail p.availableBuffers buffer.Target
                 (p.availableBuffers buffer.Target ++ [buffer]) }

/-- `BufferPool.Clear`: delete every buffer and empty both sets (the GL-side
deletions leave no pool-visible state beyond the emptied sets). -/
def BufferPool.Clear (p : BufferPool) : BufferPool :=
  { availableBuffers := fun _ => [], inUseBuffers := [], nextID := p.nextID }

/-- One pool operation of claim C7's sequences. -/
inductive PoolOp where
  | acquire (target : BufferTarget) (size : Int) (usage : BufferUsage)
  | release (b : Buffer)
  | clear
deriving DecidableEq, Repr

/-- Run one pool operation (an `acquire` hands the buffer to some caller and
keeps the pool). -/
def runPoolOp (p : BufferPool) : PoolOp → BufferPool
  | .acquire t sz u => (p.Acquire t sz u).2
  | .release b => p.Release b
  | .clear => p.Clear

/-- Run a sequence of pool operations. -/
def runPoolOps (p : BufferPool) (ops : List PoolOp) : BufferPool :=
  ops.foldl runPoolOp p

/-- Go map lookup `p.inUseBuffers[id]`. -/
def lookupInUse (p : BufferPool) (id : Nat) : Option Buffer :=
  p.inUseBuffers.find? (fun b => b.ID = id)

/-- A pool operation is well formed in a pool when, if it is a `release`,
the released buffer is currently held in the in-use set (the ownership
discipline of §5: release only what was acquired and not yet released). -/
def okPoolOp (p : BufferPool) : PoolOp → Bool
  | .release b => decide (lookupInUse p b.ID = some b)
  | _ => true

/-- A sequence of pool operations is well formed when every operation is
well formed in the pool state it runs in. -/
def okPoolOps : BufferPool → List PoolOp → Bool
  | _, [] => true
  | p, op :: rest => okPoolOp p op && okPoolOps (runPoolOp p op) rest

/-- All buffers of an available map, every target enumerated. -/
def availListF (f : BufferTarget → List Buffer) : List Buffer :=
  f BufferTarget.ArrayBuffer ++ f BufferTarget.ElementArrayBuffer ++
  f BufferTarget.UniformBufferTarget ++ f BufferTarget.ShaderStorageBufferTarget

/-- All buffers sitting in the pool's available map. -/
def availList (p : BufferPool) : List Buffer :=
  availListF p.availableBuffers

/-- IDs in the available map. -/
def availIDs (p : BufferPool) : List Nat := (availList p).map Buffer.ID

/-- IDs in the in-use map. -/
def inUseIDs (p : BufferPool) : List Nat := p.inUseBuffers.map Buffer.ID

/-- Vertex attribute component types (`resource.AttributeType`). -/
inductive AttributeType where
  | Float | Int | UInt | Byte | UByte | Short | UShort
deriving DecidableEq, Repr

/-- `resource.VertexAttribute`.  The Go `Type` field is `Type'` (Lean
keyword); `Offset uintptr` and the `int32` fields are exact integers — every
value built by this layer keeps them within machine range. -/
structure VertexAttribute where
  Location : Nat
  Size : Int
  Type' : AttributeType
  Normalized : Bool
  Stride : Int
  Offset : Int
  Divisor : Nat
deriving DecidableEq, Repr

/-- `resource.VertexArray`: name, declared attributes, attached buffers
(Go pointers, so `Option`). -/
structure VertexArray where
  ID : Nat
  Attributes : List VertexAttribute
  VBO : Option VertexBuffer
  IBO : Option IndexBuffer
deriving DecidableEq, Repr

/-- Attribute-configuration calls emitted by `VertexArray.AddAttribute`. -/
inductive VACall where
  | enableVertexAttribArray (location : Nat)
  | vertexAttribPointer (location : Nat) (size : Int) (t : AttributeType)
      (normalized : Bool) (stride offset : Int)
  | vertexAttribIPointer (location : Nat) (size : Int) (t : AttributeType) (stride offset : Int)
  | vertexAttribDivisor (location divisor : Nat)
deriving DecidableEq, Repr

/-- Draw calls emitted by the draw entry points. -/
inductive DrawCall where
  | drawElements (mode : Nat) (count : Int) (t : IndexElemType) (offsetBytes : Int)
  | drawArrays (mode : Nat) (first count : Int)
deriving DecidableEq, Repr

/-- The GL name generators (`gl.GenBuffers` / `gl.GenVertexArrays`), which
return fresh non-zero names on a live context, modelled as counters starting
at 1, so the `id == 0` construction failures are unreachable. -/
structure GLNames where
  nextBufferName : Nat
  nextArrayName : Nat
deriving DecidableEq, Repr

/-- Fresh name state for a new context. -/
def GLNames.new : GLNames := { nextBufferName := 1, nextArrayName := 1 }

/-- `resource.NewVertexBuffer`: `size = len(data)*4` bytes, target
`ArrayBuffer`; the float contents live on the GPU and are not otherwise
observable in this layer. -/
def NewVertexBuffer (g : GLNames) (data : List Float) (usage : BufferUsage) :
    VertexBuffer × GLNames :=
  ({ ID := g.nextBufferName, Target := BufferTarget.ArrayBuffer,
     Size := (data.length : Int) * 4, Usage := usage },
   { g with nextBufferName := g.nextBufferName + 1 })

/-- `resource.NewIndexBuffer`: 32-bit indices, `size = len(data)*4`,
`Count = len(data)`, element type `gl.UNSIGNED_INT`. -/
def NewIndexBuffer (g : GLNames) (data : List Nat) (usage : BufferUsage) :
    IndexBuffer × GLNames :=
  ({ ID := g.nextBufferName, Target := BufferTarget.ElementArrayBuffer,
     Size := (data.length : Int) * 4, Usage := usage,
     Count := data.length, IndexType := IndexElemType.unsignedInt },
   { g with nextBufferName := g.nextBufferName + 1 })

/-- `resource.NewVertexArray`. -/
def NewVertexArray (g : GLNames) : VertexArray × GLNames :=
  ({ ID := g.nextArrayName, Attributes := [], VBO := Option.none, IBO := Option.none },
   { g with nextArrayName := g.nextArrayName + 1 })

/-- `VertexArray.SetVertexBuffer` (the bind/unbind round-trip leaves no
state beyond the association). -/
def VertexArray.SetVertexBuffer (va : VertexArray) (vbo : VertexBuffer) : VertexArray :=
  { va with VBO := some vbo }

/-- `VertexArray.SetIndexBuffer`. -/
def VertexArray.SetIndexBuffer (va : VertexArray) (ibo : IndexBuffer) : VertexArray :=
  { va with IBO := some ibo }

/-- The calls `VertexArray.AddAttribute` emits for one descriptor: enable
the slot, dispatch float types to `gl.VertexAttribPointer` and integer types
to `gl.VertexAttribIPointer`, and mark a positive divisor per-instance. -/
def attrCallList (attr : VertexAttribute) : List VACall :=
  [VACall.enableVertexAttribArray attr.Location] ++
  (match attr.Type' with
   | AttributeType.Float =>
     [VACall.vertexAttribPointer attr.Location attr.Size attr.Type' attr.Normalized
       attr.Stride attr.Offset]
   | _ =>
     [VACall.vertexAttribIPointer attr.Location attr.Size attr.Type' attr.Stride attr.Offset]) ++
  (if attr.Divisor > 0 then [VACall.vertexAttribDivisor attr.Location attr.Divisor] else [])

/-- `VertexArray.AddAttribute`: append the descriptor and emit its
configuration calls. -/
def VertexArray.AddAttribute (va : VertexArray) (attr : VertexAttribute) :
    VertexArray × List VACall :=
  ({ va with Attributes := va.Attributes ++ [attr] }, attrCallList attr)

/-- `VertexArray.Draw`: indexed with the attached element width when an
index buffer is present, otherwise a direct array draw. -/
def VertexArray.Draw (va : VertexArray) (mode : Nat) (count offset : Int) : List DrawCall :=
  match va.IBO with
  | some ibo => [DrawCall.drawElements mode count ibo.IndexType (offset * 4)]
  | Option.none => [DrawCall.drawArrays mode offset count]

/-- `VertexArray.DrawIndexed`: no-op without an index buffer. -/
def VertexArray.DrawIndexed (va : VertexArray) (mode : Nat) : List DrawCall :=
  match va.IBO with
  | Option.none => []
  | some ibo => va.Draw mode (ibo.Count : Int) 0

/-- `resource.VertexLayout`: ordered descriptors plus the accumulated
stride. -/
structure VertexLayout where
  Attributes : List VertexAttribute
  Stride : Int
deriving DecidableEq, Repr

/-- `resource.NewVertexLayout`. -/
def NewVertexLayout : VertexLayout := { Attributes := [], Stride := 0 }

/-- `VertexLayout.AddFloat`: descriptor at the running offset, stride
advances by `count * 4`. -/
def VertexLayout.AddFloat (vl : VertexLayout) (location : Nat) (count : Int) : VertexLayout :=
  { Attributes := vl.Attributes ++
      [{ Location := location, Size := count, Type' := AttributeType.Float,
         Normalized := false, Stride := 0, Offset := vl.Stride, Divisor := 0 }]
    Stride := vl.Stride + count * 4 }

/-- `VertexLayout.AddInt`: descriptor at the running offset, stride advances
by `count * 4`. -/
def VertexLayout.AddInt (vl : VertexLayout) (location : Nat) (count : Int) : VertexLayout :=
  { Attributes := vl.Attributes ++
      [{ Location := location, Size := count, Type' := AttributeType.Int,
         Normalized := false, Stride := 0, Offset := vl.Stride, Divisor := 0 }]
    Stride := vl.Stride + count * 4 }

/-- `VertexLayout.AddUByte`: descriptor at the running offset, stride
advances by `count * 1`. -/
def VertexLayout.AddUByte (vl : VertexLayout) (location : Nat) (count : Int)
    (normalized : Bool) : VertexLayout :=
  { Attributes := vl.Attributes ++
      [{ Location := location, Size := count, Type' := AttributeType.UByte,
         Normalized := normalized, Stride := 0, Offset := vl.Stride, Divisor := 0 }]
    Stride := vl.Stride + count }

/-- One step of the `Apply` loop: add the next descriptor, accumulating
emitted calls. -/
def applyStep (acc : VertexArray × List VACall) (a : VertexAttribute) :
    VertexArray × List VACall :=
  ((acc.1.AddAttribute a).1, acc.2 ++ (acc.1.AddAttribute a).2)

/-- `VertexLayout.Apply`: stamp the final stride onto every descriptor (the
Go loop mutates `vl.Attributes` in place, so the stamped layout is returned
too), then add each descriptor to the vertex array in declaration order. -/
def VertexLayout.Apply (vl : VertexLayout) (va : VertexArray) :
    VertexLayout × VertexArray × List VACall :=
  let vl' : VertexLayout :=
    { vl with Attributes := vl.Attributes.map (fun a => { a with Stride := vl.Stride }) }
  let out := vl'.Attributes.foldl applyStep (va, [])
  (vl', out.1, out.2)

/-- `resource.Mesh`: the owned vertex array, vertex buffer and optional
index buffer. -/
structure Mesh where
  VAO : VertexArray
  VBO : VertexBuffer
  IBO : Option IndexBuffer
deriving DecidableEq, Repr

/-- `resource.NewMesh`: build the vertex buffer, the index buffer only when
`len(indices) > 0`, the vertex array, attach buffers, and apply the optional
layout.  Construction failures are name-allocation failures, unreachable on
the live-context model, so the result is total. -/
def NewMesh (g : GLNames) (vertices : List Float) (indices : List Nat)
    (layout : Option VertexLayout) : Mesh × GLNames :=
  let vb := NewVertexBuffer g vertices BufferUsage.StaticDraw
  let ib : Option IndexBuffer × GLNames :=
    if indices.length > 0 then
      let r := NewIndexBuffer vb.2 indices BufferUsage.StaticDraw
      (some r.1, r.2)
    else (Option.none, vb.2)
  let va := NewVertexArray ib.2
  let va1 := va.1.SetVertexBuffer vb.1
  let va2 := match ib.1 with
    | some ibo => va1.SetIndexBuffer ibo
    | Option.none => va1
  let va3 := match layout with
    | some l => (l.Apply va2).2.1
    | Option.none => va2
  ({ VAO := va3, VBO := vb.1, IBO := ib.1 }, va.2)

/-- `Mesh.Draw`: indexed when an index buffer exists, otherwise infer the
vertex count as `VBO.Size / 4 / 3` (the documented 3-floats-per-vertex
simplification). -/
def Mesh.Draw (m : Mesh) (mode : Nat) : List DrawCall :=
  match m.IBO with
  | some _ => m.VAO.DrawIndexed mode
  | Option.none =>
    let vertexCount := m.VBO.Size / 4 / 3
    m.VAO.Draw mode vertexCount 0

/-! ### Helper lemmas about the `SetState` trace -/

theorem mem_setState_trace (p : Pipeline) (s : State) (c : GLCall) :
    c ∈ (p.setStateApply s).2 ↔
      c ∈ (progSection p s).1 ∨ c ∈ (blendSection p s).1 ∨ c ∈ (depthSection p s).1 ∨
        c ∈ (cullSection p s).1 ∨ c ∈ tailSection s := by
  simp [Pipeline.setStateApply, List.mem_append, or_assoc]

theorem progSection_shape (p : Pipeline) (s : State) (c : GLCall)
    (h : c ∈ (progSection p s).1) :
    ∃ id, c = GLCall.useProgram id ∧ s.Program = some id ∧ p.lastProgramID ≠ id := by
  unfold progSection at h
  split at h
  · rename_i id heq
    split at h
    · rename_i hne
      simp at h
      exact ⟨id, h, heq, hne⟩
    · simp at h
  · simp at h

theorem blendSection_shape (p : Pipeline) (s : State) (c : GLCall)
    (h : c ∈ (blendSection p s).1) :
    c = GLCall.blendFunc s.BlendSrc s.BlendDst ∨
      (p.lastBlendState ≠ s.BlendEnabled ∧ (c = GLCall.enableBlend ∨ c = GLCall.disableBlend)) := by
  unfold blendSection at h
  split at h <;> split at h <;> simp_all <;> tauto

theorem depthSection_shape (p : Pipeline) (s : State) (c : GLCall)
    (h : c ∈ (depthSection p s).1) :
    c = GLCall.depthFunc s.DepthFunc ∨ c = GLCall.depthMask s.DepthWrite ∨
      (p.lastDepthState ≠ s.DepthEnabled ∧
        (c = GLCall.enableDepthTest ∨ c = GLCall.disableDepthTest)) := by
  unfold depthSection at h
  split at h <;> split at h <;> simp_all <;> tauto

theorem cullSection_shape (p : Pipeline) (s : State) (c : GLCall)
    (h : c ∈ (cullSection p s).1) :
    c = GLCall.cullFace s.CullFace ∨
      (p.lastCullState ≠ s.CullEnabled ∧
        (c = GLCall.enableCullFace ∨ c = GLCall.disableCullFace)) := by
  unfold cullSection at h
  split at h <;> split at h <;> simp_all <;> tauto

theorem tailSection_shape (s : State) (c : GLCall) (h : c ∈ tailSection s) :
    c = GLCall.viewport s.ViewportX s.ViewportY s.ViewportWidth s.ViewportHeight ∨
      c = GLCall.polygonModeLine ∨ c = GLCall.polygonModeFill := by
  unfold tailSection at h
  split at h <;> simp at h <;> tauto

theorem blendFunc_mem_blendSection (p : Pipeline) (s : State) (h : s.BlendEnabled = true) :
    GLCall.blendFunc s.BlendSrc s.BlendDst ∈ (blendSection p s).1 := by
  unfold blendSection
  split <;> simp [h]

theorem depthParams_mem_depthSection (p : Pipeline) (s : State) (h : s.DepthEnabled = true) :
    GLCall.depthFunc s.DepthFunc ∈ (depthSection p s).1 ∧
      GLCall.depthMask s.DepthWrite ∈ (depthSection p s).1 := by
  unfold depthSection
  split <;> simp [h]

theorem cullFace_mem_cullSection (p : Pipeline) (s : State) (hE : s.CullEnabled = true)
    (hF : s.CullFace ≠ CullFace.none) :
    GLCall.cullFace s.CullFace ∈ (cullSection p s).1 := by
  unfold cullSection
  split <;> simp [hE, hF]

/-! ### Helper lemmas about the `Apply` fold -/

theorem foldl_applyStep (l : List VertexAttribute) :
    ∀ (va : VertexArray) (cs : List VACall),
      (l.foldl applyStep (va, cs)).1.ID = va.ID ∧
      (l.foldl applyStep (va, cs)).1.VBO = va.VBO ∧
      (l.foldl applyStep (va, cs)).1.IBO = va.IBO ∧
      (l.foldl applyStep (va, cs)).1.Attributes = va.Attributes ++ l ∧
      (l.foldl applyStep (va, cs)).2 = cs ++ l.flatMap attrCallList := by
  induction l with
  | nil => intro va cs; simp
  | cons a rest ih =>
    intro va cs
    rw [List.foldl_cons]
    have h := ih (applyStep (va, cs) a).1 (applyStep (va, cs) a).2
    simp only [applyStep, VertexArray.AddAttribute] at h ⊢
    refine ⟨h.1, h.2.1, h.2.2.1, ?_, ?_⟩
    · rw [h.2.2.2.1]; simp
    · rw [h.2.2.2.2]; simp

/-! ### Claim theorems -/

/-- C3: `Validate(s)` succeeds iff the viewport is positive and blending is
not enabled with both factors `Zero`; a non-positive viewport reports
`InvalidViewport`, and the blend violation behind a valid viewport reports
`InvalidBlendFunction`.  `Validate` is embedded as a pure function of `s`,
matching the Go method, which never writes through its receiver. -/
theorem validate_characterization (s : State) :
    (s.Validate = Option.none ↔
      0 < s.ViewportWidth ∧ 0 < s.ViewportHeight ∧
        ¬(s.BlendEnabled = true ∧ s.BlendSrc = BlendFunc.zero ∧ s.BlendDst = BlendFunc.zero)) ∧
    (s.ViewportWidth ≤ 0 ∨ s.ViewportHeight ≤ 0 →
      s.Validate = some ValidationError.invalidViewport) ∧
    (0 < s.ViewportWidth → 0 < s.ViewportHeight → s.BlendEnabled = true →
      s.BlendSrc = BlendFunc.zero → s.BlendDst = BlendFunc.zero →
      s.Validate = some ValidationError.invalidBlendFunction) := by
  unfold State.Validate
  refine ⟨?_, ?_, ?_⟩
  · split_ifs with h1 h2 <;> simp_all <;> omega
  · intro h; rw [if_pos h]
  · intro hw hh hb hsrc hdst
    rw [if_neg (by omega), if_pos ⟨hb, hsrc, hdst⟩]

/-- Witness for C3 at concrete states: a zero-width viewport reports
`InvalidViewport`, and zero-zero blending behind the default viewport
reports `InvalidBlendFunction`. -/
theorem validate_characterization_witness :
    (({ DefaultState with ViewportWidth := 0 } : State).ViewportWidth ≤ 0 ∨
      ({ DefaultState with ViewportWidth := 0 } : State).ViewportHeight ≤ 0) ∧
    ({ DefaultState with ViewportWidth := 0 } : State).Validate =
      some ValidationError.invalidViewport ∧
    ({ DefaultState with BlendEnabled := true, BlendSrc := BlendFunc.zero, BlendDst := BlendFunc.zero } : State).Validate =
      some ValidationError.invalidBlendFunction :=
  ⟨Or.inl (by decide),
   (validate_characterization _).2.1 (Or.inl (by decide)),
   (validate_characterization _).2.2 (by decide) (by decide) (by decide) (by decide) (by decide)⟩

/-- C5: `PopState` on an empty stack reports `EmptyStackFailure`.  The
embedding returns only the error on this path — exactly as the Go method,
which returns before touching the current state, the stack, the diff cache,
or the context — so the pipeline value and the trace are untouched by
construction. -/
theorem popState_empty_stack (p : Pipeline) (h : p.stateStack = []) :
    p.PopState = Except.error PipelineError.emptyStack := by
  unfold Pipeline.PopState
  rw [h]
  rfl

/-- Witness for C5 on a freshly created pipeline. -/
theorem popState_empty_stack_witness :
    Pipeline.New.stateStack = [] ∧
      Pipeline.New.PopState = Except.error PipelineError.emptyStack :=
  ⟨rfl, popState_empty_stack Pipeline.New rfl⟩

/-- C10: the typed update wrappers short-circuit on empty input — success,
no upload, receiver unchanged — for every offset, while the underlying
`Buffer.Update` would reject `offset + 0 > Size`. -/
theorem typed_updates_empty_noop :
    (∀ (v : VertexBuffer) (offset : Int), v.UpdateFloat32 offset [] = (v, Except.ok [])) ∧
    (∀ (i : IndexBuffer) (offset : Int), i.UpdateUint32 offset [] = (i, Except.ok [])) ∧
    (∀ (i : IndexBuffer) (offset : Int), i.UpdateUint16 offset [] = (i, Except.ok [])) ∧
    (∀ (b : Buffer) (offset : Int), offset > b.Size →
      b.Update offset 0 = Except.error UpdateError.rangeFailure) := by
  refine ⟨fun v o => rfl, fun i o => rfl, fun i o => rfl, fun b o h => ?_⟩
  unfold Buffer.Update
  rw [if_pos (by omega)]

/-- C8: each `Add` call appends one descriptor at the current running offset
and advances the running offset by `count` times the component width (4 for
float and int, 1 for unsigned byte); `AddFloat(0,3)` then `AddFloat(1,2)`
gives stride 20 with offsets 0 and 12; and `Apply` stamps the accumulated
stride onto every descriptor and binds them, state and calls, in
declaration order. -/
theorem vertexLayout_offsets_stride_apply :
    (∀ (vl : VertexLayout) (location : Nat) (count : Int),
      (vl.AddFloat location count).Attributes = vl.Attributes ++
        [{ Location := location, Size := count, Type' := AttributeType.Float, Normalized := false, Stride := 0, Offset := vl.Stride, Divisor := 0 }] ∧
      (vl.AddFloat location count).Stride = vl.Stride + count * 4) ∧
    (∀ (vl : VertexLayout) (location : Nat) (count : Int),
      (vl.AddInt location count).Attributes = vl.Attributes ++
        [{ Location := location, Size := count, Type' := AttributeType.Int, Normalized := false, Stride := 0, Offset := vl.Stride, Divisor := 0 }] ∧
      (vl.AddInt location count).Stride = vl.Stride + count * 4) ∧
    (∀ (vl : VertexLayout) (location : Nat) (count : Int) (normalized : Bool),
      (vl.AddUByte location count normalized).Attributes = vl.Attributes ++
        [{ Location := location, Size := count, Type' := AttributeType.UByte, Normalized := normalized, Stride := 0, Offset := vl.Stride, Divisor := 0 }] ∧
      (vl.AddUByte location count normalized).Stride = vl.Stride + count * 1) ∧
    (((NewVertexLayout.AddFloat 0 3).AddFloat 1 2).Stride = 20 ∧
      ((NewVertexLayout.AddFloat 0 3).AddFloat 1 2).Attributes.map VertexAttribute.Offset =
        [0, 12]) ∧
    (∀ (vl : VertexLayout) (va : VertexArray),
      ((vl.Apply va).2.1).Attributes =
        va.Attributes ++ vl.Attributes.map (fun a => { a with Stride := vl.Stride }) ∧
      (vl.Apply va).2.2 =
        (vl.Attributes.map (fun a => { a with Stride := vl.Stride })).flatMap attrCallList ∧
      ((vl.Apply va).1).Attributes =
        vl.Attributes.map (fun a => { a with Stride := vl.Stride })) := by
  refine ⟨fun vl l c => ⟨rfl, rfl⟩, fun vl l c => ⟨rfl, rfl⟩,
    fun vl l c n => ⟨rfl, by simp [VertexLayout.AddUByte]⟩, ⟨by decide, by decide⟩,
    fun vl va => ?_⟩
  have h := foldl_applyStep (vl.Attributes.map (fun a => { a with Stride := vl.Stride })) va []
  exact ⟨h.2.2.2.1, by rw [VertexLayout.Apply]; exact h.2.2.2.2.trans (by simp), rfl⟩

/-- The index buffer built inside `NewMesh g vs indices layout` when
`indices` is non-empty. -/
def meshIBO (g : GLNames) (vs : List Float) (indices : List Nat) : IndexBuffer :=
  (NewIndexBuffer (NewVertexBuffer g vs BufferUsage.StaticDraw).2 indices BufferUsage.StaticDraw).1

theorem foldl_applyStep_IBO (l : List VertexAttribute) (va : VertexArray) (cs : List VACall) :
    (l.foldl applyStep (va, cs)).1.IBO = va.IBO :=
  (foldl_applyStep l va cs).2.2.1

theorem newMesh_nil_ibo (g : GLNames) (vs : List Float) (layout : Option VertexLayout) :
    (NewMesh g vs [] layout).1.IBO = Option.none ∧
      (NewMesh g vs [] layout).1.VAO.IBO = Option.none ∧
      (NewMesh g vs [] layout).1.VBO = (NewVertexBuffer g vs BufferUsage.StaticDraw).1 := by
  cases layout with
  | none => exact ⟨rfl, rfl, rfl⟩
  | some l =>
    refine ⟨rfl, ?_, rfl⟩
    simp [NewMesh, VertexLayout.Apply, foldl_applyStep_IBO, VertexArray.SetVertexBuffer,
      NewVertexArray]

theorem newMesh_cons_ibo (g : GLNames) (vs : List Float) (layout : Option VertexLayout)
    (i : Nat) (is : List Nat) :
    (NewMesh g vs (i :: is) layout).1.IBO = some (meshIBO g vs (i :: is)) ∧
      (NewMesh g vs (i :: is) layout).1.VAO.IBO = some (meshIBO g vs (i :: is)) ∧
      (NewMesh g vs (i :: is) layout).1.VBO = (NewVertexBuffer g vs BufferUsage.StaticDraw).1 := by
  have hlen : ((i :: is).length > 0) := Nat.succ_pos _
  cases layout with
  | none =>
    refine ⟨?_, ?_, ?_⟩ <;>
      simp [NewMesh, hlen, meshIBO, VertexArray.SetVertexBuffer, VertexArray.SetIndexBuffer,
        NewVertexArray]
  | some l =>
    refine ⟨?_, ?_, ?_⟩ <;>
      simp [NewMesh, hlen, meshIBO, VertexLayout.Apply, foldl_applyStep_IBO,
        VertexArray.SetVertexBuffer, VertexArray.SetIndexBuffer, NewVertexArray]

/-- C9: a mesh built with indices `[0,1,2]` carries an index buffer with
`Count = 3`; a mesh built with no indices has none; `Draw` is indexed
exactly when an index buffer exists (with the buffer's element count and
width), and otherwise draws `VBO.Size / 4 / 3` vertices inferred from the
byte size under the fixed 3-floats-per-vertex assumption. -/
theorem mesh_index_buffer_and_draw :
    (∀ (g : GLNames) (vs : List Float) (layout : Option VertexLayout),
      ∃ ibo, (NewMesh g vs [0, 1, 2] layout).1.IBO = some ibo ∧ ibo.Count = 3) ∧
    (∀ (g : GLNames) (vs : List Float) (layout : Option VertexLayout),
      (NewMesh g vs [] layout).1.IBO = Option.none) ∧
    (∀ (g : GLNames) (vs : List Float) (layout : Option VertexLayout) (i : Nat) (is : List Nat)
      (mode : Nat),
      (NewMesh g vs (i :: is) layout).1.Draw mode =
        [DrawCall.drawElements mode ((i :: is).length : Int) IndexElemType.unsignedInt 0]) ∧
    (∀ (g : GLNames) (vs : List Float) (layout : Option VertexLayout) (mode : Nat),
      (NewMesh g vs [] layout).1.Draw mode =
        [DrawCall.drawArrays mode 0 ((NewMesh g vs [] layout).1.VBO.Size / 4 / 3)] ∧
      (NewMesh g vs [] layout).1.VBO.Size = (vs.length : Int) * 4) := by
  refine ⟨fun g vs layout => ⟨meshIBO g vs [0, 1, 2], (newMesh_cons_ibo g vs layout 0 [1, 2]).1, rfl⟩,
    fun g vs layout => (newMesh_nil_ibo g vs layout).1, fun g vs layout i is mode => ?_,
    fun g vs layout mode => ?_⟩
  · obtain ⟨h1, h2, _⟩ := newMesh_cons_ibo g vs layout i is
    simp [Mesh.Draw, h1, VertexArray.DrawIndexed, h2, VertexArray.Draw, meshIBO, NewIndexBuffer]
  · obtain ⟨h1, h2, h3⟩ := newMesh_nil_ibo g vs layout
    constructor
    · simp [Mesh.Draw, h1, VertexArray.Draw, h2]
    · rw [h3]; rfl

/-- Counterexample to C1 as stated: after `SetState(DefaultState)` on a new
pipeline, the cached cull flag is enabled; a second `SetState` whose state
keeps `CullEnabled = true` but sets `CullFace = None` emits no `gl.CullFace`
call, so the cull parametric sub-value is not re-issued while the toggle
stayed enabled. -/
theorem setState_cull_reissue_counterexample :
    (Pipeline.New.setStateApply DefaultState).1.lastCullState = true ∧
    ({ DefaultState with CullFace := CullFace.none } : State).CullEnabled = true ∧
    GLCall.cullFace ({ DefaultState with CullFace := CullFace.none } : State).CullFace ∉
      ((Pipeline.New.setStateApply DefaultState).1.setStateApply
        { DefaultState with CullFace := CullFace.none }).2 := by
  refine ⟨by decide, by decide, by decide⟩

/-- C1 (amended): in every `SetState` trace, an enable/disable transition
call for blending, depth testing or culling is emitted only when the new
flag differs from the cached one; while a toggle's flag stays enabled its
parametric sub-values are re-issued on every call — blend factors and depth
function/mask unconditionally, the cull face whenever `CullFace ≠ None`
(with `CullFace = None` no cull call is emitted at all); and a program
rebind is emitted only for a non-nil program whose identity differs from
the cached identity. -/
theorem setState_diff_emission (p : Pipeline) (s : State) :
    ((GLCall.enableBlend ∈ (p.setStateApply s).2 ∨
        GLCall.disableBlend ∈ (p.setStateApply s).2) →
      p.lastBlendState ≠ s.BlendEnabled) ∧
    ((GLCall.enableDepthTest ∈ (p.setStateApply s).2 ∨
        GLCall.disableDepthTest ∈ (p.setStateApply s).2) →
      p.lastDepthState ≠ s.DepthEnabled) ∧
    ((GLCall.enableCullFace ∈ (p.setStateApply s).2 ∨
        GLCall.disableCullFace ∈ (p.setStateApply s).2) →
      p.lastCullState ≠ s.CullEnabled) ∧
    (s.BlendEnabled = true → GLCall.blendFunc s.BlendSrc s.BlendDst ∈ (p.setStateApply s).2) ∧
    (s.DepthEnabled = true → GLCall.depthFunc s.DepthFunc ∈ (p.setStateApply s).2 ∧
      GLCall.depthMask s.DepthWrite ∈ (p.setStateApply s).2) ∧
    (s.CullEnabled = true → s.CullFace ≠ CullFace.none →
      GLCall.cullFace s.CullFace ∈ (p.setStateApply s).2) ∧
    (∀ id, GLCall.useProgram id ∈ (p.setStateApply s).2 →
      s.Program = some id ∧ p.lastProgramID ≠ id) := by
  refine ⟨?_, ?_, ?_, ?_, ?_, ?_, ?_⟩
  · rintro (h | h) <;> rw [mem_setState_trace] at h <;>
      rcases h with h | h | h | h | h <;>
      first
        | (exact absurd (progSection_shape p s _ h) (by simp))
        | (rcases blendSection_shape p s _ h with h' | h' <;> simp_all)
        | (rcases depthSection_shape p s _ h with h' | h' | h' <;> simp_all)
        | (rcases cullSection_shape p s _ h with h' | h' <;> simp_all)
        | (rcases tailSection_shape s _ h with h' | h' | h' <;> simp_all)
  · rintro (h | h) <;> rw [mem_setState_trace] at h <;>
      rcases h with h | h | h | h | h <;>
      first
        | (exact absurd (progSection_shape p s _ h) (by simp))
        | (rcases blendSection_shape p s _ h with h' | h' <;> simp_all)
        | (rcases depthSection_shape p s _ h with h' | h' | h' <;> simp_all)
        | (rcases cullSection_shape p s _ h with h' | h' <;> simp_all)
        | (rcases tailSection_shape s _ h with h' | h' | h' <;> simp_all)
  · rintro (h | h) <;> rw [mem_setState_trace] at h <;>
      rcases h with h | h | h | h | h <;>
      first
        | (exact absurd (progSection_shape p s _ h) (by simp))
        | (rcases blendSection_shape p s _ h with h' | h' <;> simp_all)
        | (rcases depthSection_shape p s _ h with h' | h' | h' <;> simp_all)
        | (rcases cullSection_shape p s _ h with h' | h' <;> simp_all)
        | (rcases tailSection_shape s _ h with h' | h' | h' <;> simp_all)
  · intro h
    exact (mem_setState_trace p s _).mpr (Or.inr (Or.inl (blendFunc_mem_blendSection p s h)))
  · intro h
    obtain ⟨h1, h2⟩ := depthParams_mem_depthSection p s h
    exact ⟨(mem_setState_trace p s _).mpr (Or.inr (Or.inr (Or.inl h1))),
      (mem_setState_trace p s _).mpr (Or.inr (Or.inr (Or.inl h2)))⟩
  · intro hE hF
    exact (mem_setState_trace p s _).mpr
      (Or.inr (Or.inr (Or.inr (Or.inl (cullFace_mem_cullSection p s hE hF)))))
  · intro id h
    rw [mem_setState_trace] at h
    rcases h with h | h | h | h | h
    · obtain ⟨id', heq, hP, hne⟩ := progSection_shape p s _ h
      obtain rfl : id' = id := by simpa using heq.symm
      exact ⟨hP, hne⟩
    · rcases blendSection_shape p s _ h with h' | h' <;> simp_all
    · rcases depthSection_shape p s _ h with h' | h' | h' <;> simp_all
    · rcases cullSection_shape p s _ h with h' | h' <;> simp_all
    · rcases tailSection_shape s _ h with h' | h' | h' <;> simp_all

/-- Witness for C1 (amended) on a pipeline whose cull and depth toggles are
cached enabled: applying the default state (cull on, face Back, depth on)
re-issues the cull face without a toggle transition. -/
theorem setState_diff_emission_witness :
    (Pipeline.New.setStateApply DefaultState).1.lastCullState = true ∧
    DefaultState.CullEnabled = true ∧ DefaultState.CullFace ≠ CullFace.none ∧
    GLCall.cullFace DefaultState.CullFace ∈
      ((Pipeline.New.setStateApply DefaultState).1.setStateApply DefaultState).2 :=
  ⟨by decide, by decide, by decide,
   (setState_diff_emission (Pipeline.New.setStateApply DefaultState).1 DefaultState).2.2.2.2.2.1
     (by decide) (by decide)⟩

/-! ### Helper lemmas about the cull bit of the modelled context -/

theorem cullEnabledAfter_append (l1 : List GLCall) :
    ∀ (l2 : List GLCall) (g : Bool),
      cullEnabledAfter g (l1 ++ l2) = cullEnabledAfter (cullEnabledAfter g l1) l2 := by
  induction l1 with
  | nil => intro l2 g; rfl
  | cons c rest ih => intro l2 g; cases c <;> simp [cullEnabledAfter, ih]

theorem cullEnabledAfter_no_toggle (l : List GLCall)
    (h : ∀ c ∈ l, c ≠ GLCall.enableCullFace ∧ c ≠ GLCall.disableCullFace) (g : Bool) :
    cullEnabledAfter g l = g := by
  induction l with
  | nil => rfl
  | cons c rest ih =>
    have hc := h c (by simp)
    have hrest : ∀ c ∈ rest, c ≠ GLCall.enableCullFace ∧ c ≠ GLCall.disableCullFace :=
      fun x hx => h x (by simp [hx])
    cases c <;> simp_all [cullEnabledAfter]

theorem progSection_no_cull_toggle (p : Pipeline) (s : State) :
    ∀ c ∈ (progSection p s).1, c ≠ GLCall.enableCullFace ∧ c ≠ GLCall.disableCullFace := by
  intro c h
  obtain ⟨id, rfl, -, -⟩ := progSection_shape p s c h
  simp

theorem blendSection_no_cull_toggle (p : Pipeline) (s : State) :
    ∀ c ∈ (blendSection p s).1, c ≠ GLCall.enableCullFace ∧ c ≠ GLCall.disableCullFace := by
  intro c h
  rcases blendSection_shape p s c h with h' | ⟨-, h' | h'⟩ <;> subst h' <;> simp

theorem depthSection_no_cull_toggle (p : Pipeline) (s : State) :
    ∀ c ∈ (depthSection p s).1, c ≠ GLCall.enableCullFace ∧ c ≠ GLCall.disableCullFace := by
  intro c h
  rcases depthSection_shape p s c h with h' | h' | ⟨-, h' | h'⟩ <;> subst h' <;> simp

theorem tailSection_no_cull_toggle (s : State) :
    ∀ c ∈ tailSection s, c ≠ GLCall.enableCullFace ∧ c ≠ GLCall.disableCullFace := by
  intro c h
  rcases tailSection_shape s c h with h' | h' | h' <;> subst h' <;> simp

/-- Cull bit of the modelled context after one `setStateApply` trace: only
the cull section matters. -/
theorem cullEnabledAfter_setState (p : Pipeline) (s : State) (g : Bool) :
    cullEnabledAfter g (p.setStateApply s).2 = cullEnabledAfter g (cullSection p s).1 := by
  show cullEnabledAfter g ((progSection p s).1 ++ (blendSection p s).1 ++ (depthSection p s).1 ++
    (cullSection p s).1 ++ tailSection s) = _
  rw [cullEnabledAfter_append, cullEnabledAfter_append, cullEnabledAfter_append,
    cullEnabledAfter_append,
    cullEnabledAfter_no_toggle _ (progSection_no_cull_toggle p s),
    cullEnabledAfter_no_toggle _ (blendSection_no_cull_toggle p s),
    cullEnabledAfter_no_toggle _ (depthSection_no_cull_toggle p s),
    cullEnabledAfter_no_toggle _ (tailSection_no_cull_toggle s)]

/-- Counterexample to C2 as stated: starting from a new pipeline with the
context cull bit off, `SetState(DefaultState)` enables culling; a second
`SetState` with `CullEnabled = true, CullFace = None` emits no cull call, so
the modelled context still has culling enabled afterwards. -/
theorem cullNone_counterexample :
    ({ DefaultState with CullFace := CullFace.none } : State).CullEnabled = true ∧
    cullEnabledAfter false
      ((Pipeline.New.setStateApply DefaultState).2 ++
        ((Pipeline.New.setStateApply DefaultState).1.setStateApply
          { DefaultState with CullFace := CullFace.none }).2) = true := by
  refine ⟨by decide, by decide⟩

/-- C2 (amended): a state with `CullEnabled = true` and `CullFace = None`
behaves as disabled culling through `SetCulling` always, and through
`SetState` exactly when the cached cull flag transitions; when the cached
flag already reads enabled, `SetState` emits no cull call and the context
keeps its previous cull bit. -/
theorem cullNone_behaves_disabled (p : Pipeline) (s : State) (g : Bool)
    (hE : s.CullEnabled = true) (hF : s.CullFace = CullFace.none) :
    cullEnabledAfter g (p.SetCulling s.CullEnabled s.CullFace).2 = false ∧
    (p.lastCullState ≠ s.CullEnabled →
      cullEnabledAfter g (p.setStateApply s).2 = false) ∧
    (p.lastCullState = true → cullEnabledAfter g (p.setStateApply s).2 = g) := by
  refine ⟨?_, ?_, ?_⟩
  · rw [Pipeline.SetCulling]
    rw [if_neg (by simp [hF])]
    rfl
  · intro hne
    rw [cullEnabledAfter_setState, cullSection, if_pos hne, if_neg (by simp [hF])]
    rfl
  · intro hlast
    rw [cullEnabledAfter_setState, cullSection, if_neg (by rw [hlast, hE]; simp),
      if_neg (by simp [hF])]
    rfl

/-- Witness for C2 (amended): with the cull flag cached enabled and the
context bit on, applying `CullEnabled = true, CullFace = None` through
`SetState` leaves the context bit on. -/
theorem cullNone_behaves_disabled_witness :
    ({ DefaultState with CullFace := CullFace.none } : State).CullEnabled = true ∧
    ({ DefaultState with CullFace := CullFace.none } : State).CullFace = CullFace.none ∧
    (Pipeline.New.setStateApply DefaultState).1.lastCullState = true ∧
    cullEnabledAfter true
      ((Pipeline.New.setStateApply DefaultState).1.setStateApply
        { DefaultState with CullFace := CullFace.none }).2 = true :=
  ⟨by decide, by decide, by decide,
   (cullNone_behaves_disabled (Pipeline.New.setStateApply DefaultState).1
      { DefaultState with CullFace := CullFace.none } true (by decide) (by decide)).2.2
     (by decide)⟩

/-! ### Helper lemmas for the state stack -/

theorem runMutation_stack (p : Pipeline) (m : Mutation) :
    (runMutation p m).stateStack = p.stateStack := by
  cases m with
  | setProgram prog =>
    show (p.SetProgram prog).1.stateStack = p.stateStack
    unfold Pipeline.SetProgram
    split <;> split <;> rfl
  | _ => rfl

theorem runMutations_stack (ms : List Mutation) :
    ∀ p : Pipeline, (runMutations p ms).stateStack = p.stateStack := by
  induction ms with
  | nil => intro p; rfl
  | cons m rest ih =>
    intro p
    show (runMutations (runMutation p m) rest).stateStack = _
    rw [ih, runMutation_stack]

/-- C4: any sequence of mutations bracketed by `PushState`/`PopState`
restores `GetState` to the pre-push value: `PushState` saves a by-value
copy, no mutation touches the stack, and `PopState` re-applies the saved
copy through the `SetState` diff path, which installs it as the current
state. -/
theorem pushState_popState_restores (p : Pipeline) (ms : List Mutation) :
    ∃ r, (runMutations p.PushState ms).PopState = Except.ok r ∧
      r.1.GetState = p.GetState := by
  have hstack : (runMutations p.PushState ms).stateStack =
      p.stateStack ++ [p.currentState] := by
    rw [runMutations_stack]; rfl
  rw [Pipeline.PopState, hstack, List.getLast?_concat]
  exact ⟨_, rfl, rfl⟩

/-! ### Helper lemmas about the pool scan -/

theorem scanAvail_of_first (size : Int) (usage : BufferUsage) (b : Buffer)
    (hb : b.Size ≥ size ∧ b.Usage = usage) :
    ∀ (pre : List Buffer), (∀ x ∈ pre, ¬(x.Size ≥ size ∧ x.Usage = usage)) →
      ∀ post, scanAvail size usage (pre ++ b :: post) = some (b, pre ++ post) := by
  intro pre
  induction pre with
  | nil => intro _ post; simp [scanAvail, hb]
  | cons x rest ih =>
    intro hpre post
    have hx := hpre x (by simp)
    have hrest : ∀ y ∈ rest, ¬(y.Size ≥ size ∧ y.Usage = usage) :=
      fun y hy => hpre y (by simp [hy])
    simp only [List.cons_append, scanAvail, if_neg hx, List.append_eq, ih hrest post]

theorem scanAvail_none_of_no_match (size : Int) (usage : BufferUsage) :
    ∀ l : List Buffer, (∀ x ∈ l, ¬(x.Size ≥ size ∧ x.Usage = usage)) →
      scanAvail size usage l = Option.none := by
  intro l
  induction l with
  | nil => intro _; rfl
  | cons x rest ih =>
    intro h
    have hx := h x (by simp)
    have hrest : ∀ y ∈ rest, ¬(y.Size ≥ size ∧ y.Usage = usage) :=
      fun y hy => h y (by simp [hy])
    simp only [scanAvail, if_neg hx, ih hrest]

theorem scanAvail_found (size : Int) (usage : BufferUsage) :
    ∀ (l : List Buffer) (b : Buffer) (rest : List Buffer),
      scanAvail size usage l = some (b, rest) →
      ∃ pre post, l = pre ++ b :: post ∧ rest = pre ++ post ∧
        (∀ x ∈ pre, ¬(x.Size ≥ size ∧ x.Usage = usage)) ∧
        b.Size ≥ size ∧ b.Usage = usage := by
  intro l
  induction l with
  | nil => intro b rest h; simp [scanAvail] at h
  | cons x tl ih =>
    intro b rest h
    rw [scanAvail] at h
    by_cases hx : x.Size ≥ size ∧ x.Usage = usage
    · rw [if_pos hx] at h
      obtain ⟨rfl, rfl⟩ : x = b ∧ tl = rest := by simpa using h
      exact ⟨[], tl, rfl, rfl, by simp, hx⟩
    · rw [if_neg hx] at h
      cases hscan : scanAvail size usage tl with
      | none => rw [hscan] at h; simp at h
      | some fr =>
        rw [hscan] at h
        obtain ⟨rfl, rfl⟩ : fr.1 = b ∧ x :: fr.2 = rest := by
          cases fr; simpa using h
        obtain ⟨pre, post, htl, hrest, hpre, hb⟩ := ih fr.1 fr.2 hscan
        exact ⟨x :: pre, post, by simp [htl], by simp [hrest], by
          intro y hy
          rcases List.mem_cons.mp hy with rfl | hy
          · exact hx
          · exact hpre y hy, hb⟩

/-- The buffer `A` of scenario D: the first allocation of a fresh pool for
`Acquire(Vertex, 1024, Static)`. -/
def bufD : Buffer :=
  { ID := 1, Target := BufferTarget.ArrayBuffer, Size := 1024, Usage := BufferUsage.StaticDraw }

/-- The scenario-D pool after `Acquire(1024) → A`, `Acquire(512) → B`,
`Release(A)`: its Vertex slice is exactly `[A]`. -/
def poolD : BufferPool :=
  ((NewBufferPool.Acquire BufferTarget.ArrayBuffer 1024 BufferUsage.StaticDraw).2.Acquire
    BufferTarget.ArrayBuffer 512 BufferUsage.StaticDraw).2.Release bufD

/-- C6: `Acquire` is first-fit over the target's available slice — given a
decomposition whose prefix has no buffer matching usage with sufficient
capacity and whose head does, it returns exactly that head, removes it from
the available set, inserts it in-use, and allocates nothing; when nothing
matches it allocates a fresh buffer of the requested size; and scenario D
(1024 → A, 512 → B ≠ A, release A, 500 → A) holds on a fresh pool. -/
theorem acquire_first_fit :
    (∀ (p : BufferPool) (t : BufferTarget) (sz : Int) (u : BufferUsage)
      (pre : List Buffer) (b : Buffer) (post : List Buffer),
      p.availableBuffers t = pre ++ b :: post →
      (∀ x ∈ pre, ¬(x.Size ≥ sz ∧ x.Usage = u)) → b.Size ≥ sz → b.Usage = u →
      (p.Acquire t sz u).1 = b ∧
      (p.Acquire t sz u).2.availableBuffers = setAvail p.availableBuffers t (pre ++ post) ∧
      (p.Acquire t sz u).2.inUseBuffers = mapInsert p.inUseBuffers b ∧
      (p.Acquire t sz u).2.nextID = p.nextID) ∧
    (∀ (p : BufferPool) (t : BufferTarget) (sz : Int) (u : BufferUsage),
      (∀ x ∈ p.availableBuffers t, ¬(x.Size ≥ sz ∧ x.Usage = u)) →
      (p.Acquire t sz u).1 = { ID := p.nextID, Target := t, Size := sz, Usage := u } ∧
      (p.Acquire t sz u).2.nextID = p.nextID + 1 ∧
      (p.Acquire t sz u).2.availableBuffers t = p.availableBuffers t) ∧
    ((NewBufferPool.Acquire BufferTarget.ArrayBuffer 1024 BufferUsage.StaticDraw).1 = bufD ∧
     ((NewBufferPool.Acquire BufferTarget.ArrayBuffer 1024 BufferUsage.StaticDraw).2.Acquire
        BufferTarget.ArrayBuffer 512 BufferUsage.StaticDraw).1 ≠ bufD ∧
     (poolD.Acquire BufferTarget.ArrayBuffer 500 BufferUsage.StaticDraw).1 = bufD) := by
  refine ⟨?_, ?_, by decide, by decide, by decide⟩
  · intro p t sz u pre b post havail hpre hsz hu
    rw [BufferPool.Acquire, havail, scanAvail_of_first sz u b ⟨hsz, hu⟩ pre hpre post]
    exact ⟨rfl, rfl, rfl, rfl⟩
  · intro p t sz u hnone
    rw [BufferPool.Acquire, scanAvail_none_of_no_match sz u _ hnone]
    exact ⟨rfl, rfl, rfl⟩

/-- Witness for C6: instantiate the first-fit branch at the scenario-D pool
whose available slice is exactly `[A]`. -/
theorem acquire_first_fit_witness :
    poolD.availableBuffers BufferTarget.ArrayBuffer = [] ++ bufD :: [] ∧
    (poolD.Acquire BufferTarget.ArrayBuffer 500 BufferUsage.StaticDraw).1 = bufD := by
  have h := acquire_first_fit.1 poolD BufferTarget.ArrayBuffer 500 BufferUsage.StaticDraw
    [] bufD [] (by decide) (by simp) (by decide) (by decide)
  exact ⟨by decide, h.1⟩

/-! ### Helper lemmas for the pool ownership invariant -/

/-- Ownership invariant of a pool: the IDs across the available and in-use
sets are pairwise distinct, and every ID is below the name counter. -/
def PoolInv (p : BufferPool) : Prop :=
  (availIDs p ++ inUseIDs p).Nodup ∧ ∀ id ∈ availIDs p ++ inUseIDs p, id < p.nextID

theorem PoolInv_new : PoolInv NewBufferPool := by
  constructor <;> simp [availIDs, availList, availListF, inUseIDs, NewBufferPool]

theorem PoolInv_of_perm (p q : BufferPool)
    (hperm : (availIDs q ++ inUseIDs q).Perm (availIDs p ++ inUseIDs p))
    (hn : p.nextID ≤ q.nextID) (h : PoolInv p) : PoolInv q :=
  ⟨hperm.symm.nodup h.1, fun id hid => lt_of_lt_of_le (h.2 id (hperm.mem_iff.mp hid)) hn⟩

theorem count_availListF_setAvail (f : BufferTarget → List Buffer) (t : BufferTarget)
    (l : List Buffer) (a : Nat) :
    List.count a ((availListF (setAvail f t l)).map Buffer.ID) +
      List.count a ((f t).map Buffer.ID) =
    List.count a ((availListF f).map Buffer.ID) + List.count a (l.map Buffer.ID) := by
  cases t <;>
    simp [availListF, setAvail, List.count_append, List.map_append] <;> omega

theorem mem_availIDs_of_slot (p : BufferPool) (t : BufferTarget) (b : Buffer)
    (h : b ∈ p.availableBuffers t) : b.ID ∈ availIDs p := by
  have hb : b ∈ availList p := by
    cases t <;> (simp only [availList, availListF, List.mem_append]; tauto)
  exact List.mem_map_of_mem Buffer.ID hb

theorem mapInsert_of_fresh (m : List Buffer) (b : Buffer)
    (h : ∀ x ∈ m, x.ID ≠ b.ID) : mapInsert m b = m ++ [b] := by
  rw [mapInsert, if_neg]
  simp only [List.any_eq_true, decide_eq_true_eq, not_exists, not_and]
  exact fun x hx => h x hx

theorem find?_decomp {α : Type} (q : α → Bool) :
    ∀ (l : List α) (x : α), l.find? q = some x →
      ∃ l1 l2, l = l1 ++ x :: l2 ∧ q x = true ∧ ∀ y ∈ l1, q y = false := by
  intro l
  induction l with
  | nil => intro x h; simp at h
  | cons z tl ih =>
    intro x h
    rw [List.find?] at h
    cases hz : q z with
    | true =>
      rw [hz] at h
      obtain rfl : z = x := by simpa using h
      exact ⟨[], tl, rfl, hz, by simp⟩
    | false =>
      rw [hz] at h
      simp only at h
      obtain ⟨l1, l2, rfl, hx, hl1⟩ := ih x h
      exact ⟨z :: l1, l2, rfl, hx, by
        intro y hy
        rcases List.mem_cons.mp hy with rfl | hy
        · exact hz
        · exact hl1 y hy⟩

theorem filter_remove_one (b : Buffer) (l1 l2 : List Buffer)
    (h1 : ∀ y ∈ l1, y.ID ≠ b.ID) (h2 : ∀ y ∈ l2, y.ID ≠ b.ID) :
    (l1 ++ b :: l2).filter (fun x => x.ID ≠ b.ID) = l1 ++ l2 := by
  rw [List.filter_append, List.filter_cons_of_neg (by simp),
    List.filter_eq_self.mpr (by intro a ha; simpa using h1 a ha),
    List.filter_eq_self.mpr (by intro a ha; simpa using h2 a ha)]

/-- Inserting a fresh buffer named by the counter preserves the invariant. -/
theorem PoolInv_insert_fresh (p : BufferPool) (b : Buffer) (hb : b.ID = p.nextID)
    (h : PoolInv p) :
    PoolInv { p with inUseBuffers := mapInsert p.inUseBuffers b, nextID := p.nextID + 1 } := by
  obtain ⟨hnodup, hbound⟩ := h
  have hfresh : ∀ x ∈ p.inUseBuffers, x.ID ≠ b.ID := by
    intro x hx hxe
    have := hbound x.ID (List.mem_append.mpr (Or.inr (List.mem_map_of_mem Buffer.ID hx)))
    omega
  have hins := mapInsert_of_fresh p.inUseBuffers b hfresh
  have hA : availIDs { p with inUseBuffers := mapInsert p.inUseBuffers b, nextID := p.nextID + 1 } =
      availIDs p := rfl
  have hU : inUseIDs { p with inUseBuffers := mapInsert p.inUseBuffers b, nextID := p.nextID + 1 } =
      inUseIDs p ++ [b.ID] := by
    show (mapInsert p.inUseBuffers b).map Buffer.ID = _
    rw [hins, List.map_append]
    rfl
  constructor
  · rw [hA, hU, ← List.append_assoc, List.nodup_append]
    refine ⟨hnodup, List.nodup_singleton _, ?_⟩
    intro a ha hmem
    have := hbound a ha
    simp at hmem
    omega
  · intro id hid
    rw [hA, hU, ← List.append_assoc] at hid
    show id < p.nextID + 1
    rcases List.mem_append.mp hid with h1 | h1
    · exact Nat.lt_succ_of_lt (hbound id h1)
    · simp at h1; omega

/-- Acquire preserves the ownership invariant. -/
theorem PoolInv_acquire (p : BufferPool) (t : BufferTarget) (sz : Int) (u : BufferUsage)
    (h : PoolInv p) : PoolInv (p.Acquire t sz u).2 := by
  rw [BufferPool.Acquire]
  cases hscan : scanAvail sz u (p.availableBuffers t) with
  | some br =>
    obtain ⟨b, rest⟩ := br
    obtain ⟨pre, post, havail, hrest, -, -⟩ := scanAvail_found sz u _ b rest (by rw [hscan])
    subst hrest
    have hbmem : b.ID ∈ availIDs p :=
      mem_availIDs_of_slot p t b (by rw [havail]; simp)
    have hdisj : b.ID ∉ inUseIDs p :=
      List.disjoint_of_nodup_append h.1 hbmem
    have hins : mapInsert p.inUseBuffers b = p.inUseBuffers ++ [b] :=
      mapInsert_of_fresh _ _ (by
        intro x hx hxe
        exact hdisj (by rw [← hxe]; exact List.mem_map_of_mem Buffer.ID hx))
    refine PoolInv_of_perm p _ ?_ le_rfl h
    rw [List.perm_iff_count]
    intro a
    have hc := count_availListF_setAvail p.availableBuffers t (pre ++ post) a
    rw [havail] at hc
    simp [availIDs, availList, inUseIDs, hins, List.count_append, List.map_append,
      List.map_cons, List.count_cons] at hc ⊢
    omega
  | none => exact PoolInv_insert_fresh p _ rfl h

/-- Release of a buffer currently held in-use preserves the ownership
invariant. -/
theorem PoolInv_release (p : BufferPool) (b : Buffer)
    (h : PoolInv p) (hok : lookupInUse p b.ID = some b) : PoolInv (p.Release b) := by
  rw [BufferPool.Release]
  by_cases h0 : b.ID = 0
  · rw [if_pos h0]; exact h
  rw [if_neg h0]
  obtain ⟨l1, l2, hdec, -, hl1⟩ := find?_decomp _ p.inUseBuffers b hok
  have hUnodup : (inUseIDs p).Nodup := (List.nodup_append.mp h.1).2.1
  have hl1' : ∀ y ∈ l1, y.ID ≠ b.ID := by
    intro y hy hye
    have := hl1 y hy
    simp [hye] at this
  have hl2' : ∀ y ∈ l2, y.ID ≠ b.ID := by
    intro y hy hye
    rw [inUseIDs, hdec] at hUnodup
    simp only [List.map_append, List.map_cons, List.nodup_append, List.nodup_cons] at hUnodup
    exact hUnodup.2.1.1 (by rw [← hye]; exact List.mem_map_of_mem Buffer.ID hy)
  have hfilter : p.inUseBuffers.filter (fun x => x.ID ≠ b.ID) = l1 ++ l2 := by
    rw [hdec]; exact filter_remove_one b l1 l2 hl1' hl2'
  have hu : ∀ a : Nat, List.count a (inUseIDs p) = List.count a ((l1 ++ b :: l2).map Buffer.ID) :=
    fun a => by rw [inUseIDs, hdec]
  refine PoolInv_of_perm p _ ?_ le_rfl h
  rw [List.perm_iff_count]
  intro a
  have hc := count_availListF_setAvail p.availableBuffers b.Target
    (p.availableBuffers b.Target ++ [b]) a
  have hua := hu a
  simp only [availIDs, availList, inUseIDs, List.count_append]
  rw [hfilter]
  simp [inUseIDs, List.count_append, List.map_append, List.map_cons, List.count_cons] at hc hua ⊢
  omega

theorem PoolInv_clear (p : BufferPool) : PoolInv p.Clear := by
  constructor <;> simp [availIDs, availList, availListF, inUseIDs, BufferPool.Clear]

theorem PoolInv_runPoolOps :
    ∀ (ops : List PoolOp) (p : BufferPool), PoolInv p → okPoolOps p ops = true →
      PoolInv (runPoolOps p ops) := by
  intro ops
  induction ops with
  | nil => intro p h _; exact h
  | cons op rest ih =>
    intro p h hok
    rw [okPoolOps, Bool.and_eq_true] at hok
    obtain ⟨h1, h2⟩ := hok
    refine ih (runPoolOp p op) ?_ h2
    cases op with
    | acquire t sz u => exact PoolInv_acquire p t sz u h
    | release b =>
      rw [okPoolOp] at h1
      exact PoolInv_release p b h (of_decide_eq_true h1)
    | clear => exact PoolInv_clear p

/-- Counterexample to C7 as stated: with unconstrained `Release` calls,
double-releasing the first acquired buffer and re-acquiring it leaves ID 1
in the available set and the in-use set simultaneously. -/
theorem pool_sets_disjoint_counterexample :
    1 ∈ availIDs (runPoolOps NewBufferPool
      [PoolOp.acquire BufferTarget.ArrayBuffer 10 BufferUsage.StaticDraw,
       PoolOp.release { ID := 1, Target := BufferTarget.ArrayBuffer, Size := 10, Usage := BufferUsage.StaticDraw },
       PoolOp.release { ID := 1, Target := BufferTarget.ArrayBuffer, Size := 10, Usage := BufferUsage.StaticDraw },
       PoolOp.acquire BufferTarget.ArrayBuffer 10 BufferUsage.StaticDraw]) ∧
    1 ∈ inUseIDs (runPoolOps NewBufferPool
      [PoolOp.acquire BufferTarget.ArrayBuffer 10 BufferUsage.StaticDraw,
       PoolOp.release { ID := 1, Target := BufferTarget.ArrayBuffer, Size := 10, Usage := BufferUsage.StaticDraw },
       PoolOp.release { ID := 1, Target := BufferTarget.ArrayBuffer, Size := 10, Usage := BufferUsage.StaticDraw },
       PoolOp.acquire BufferTarget.ArrayBuffer 10 BufferUsage.StaticDraw]) := by
  refine ⟨by decide, by decide⟩

/-- C7 (amended): for every sequence of `Acquire`, `Release` and `Clear`
operations from a new pool in which each `Release` hands back a buffer
currently held in the in-use set (the §5 ownership discipline), no buffer ID
is ever in the available set and the in-use set simultaneously. -/
theorem pool_sets_disjoint (ops : List PoolOp)
    (hok : okPoolOps NewBufferPool ops = true) (id : Nat) :
    ¬(id ∈ availIDs (runPoolOps NewBufferPool ops) ∧
      id ∈ inUseIDs (runPoolOps NewBufferPool ops)) := by
  rintro ⟨hA, hU⟩
  have hinv := PoolInv_runPoolOps ops NewBufferPool PoolInv_new hok
  exact List.disjoint_of_nodup_append hinv.1 hA hU

/-- Witness for C7 (amended): acquire, legitimate release, re-acquire is a
well-formed sequence, and ID 1 is then not in both sets. -/
theorem pool_sets_disjoint_witness :
    okPoolOps NewBufferPool
      [PoolOp.acquire BufferTarget.ArrayBuffer 10 BufferUsage.StaticDraw,
       PoolOp.release { ID := 1, Target := BufferTarget.ArrayBuffer, Size := 10, Usage := BufferUsage.StaticDraw },
       PoolOp.acquire BufferTarget.ArrayBuffer 10 BufferUsage.StaticDraw] = true ∧
    ¬(1 ∈ availIDs (runPoolOps NewBufferPool
        [PoolOp.acquire BufferTarget.ArrayBuffer 10 BufferUsage.StaticDraw,
         PoolOp.release { ID := 1, Target := BufferTarget.ArrayBuffer, Size := 10, Usage := BufferUsage.StaticDraw },
         PoolOp.acquire BufferTarget.ArrayBuffer 10 BufferUsage.StaticDraw]) ∧
      1 ∈ inUseIDs (runPoolOps NewBufferPool
        [PoolOp.acquire BufferTarget.ArrayBuffer 10 BufferUsage.StaticDraw,
         PoolOp.release { ID := 1, Target := BufferTarget.ArrayBuffer, Size := 10, Usage := BufferUsage.StaticDraw },
         PoolOp.acquire BufferTarget.ArrayBuffer 10 BufferUsage.StaticDraw])) :=
  ⟨by decide, pool_sets_disjoint _ (by decide) 1⟩

/-- Witness for C10: offset 5 on a 4-byte buffer is past capacity, the raw
update with size 0 fails there, yet the empty typed update succeeds. -/
theorem typed_updates_empty_noop_witness :
    ((5 : Int) >
      ({ ID := 1, Target := BufferTarget.ArrayBuffer, Size := 4,
         Usage := BufferUsage.StaticDraw } : Buffer).Size) ∧
    ({ ID := 1, Target := BufferTarget.ArrayBuffer, Size := 4,
       Usage := BufferUsage.StaticDraw } : Buffer).Update 5 0 =
      Except.error UpdateError.rangeFailure ∧
    VertexBuffer.UpdateFloat32
      { toBuffer := { ID := 1, Target := BufferTarget.ArrayBuffer, Size := 4,
                      Usage := BufferUsage.StaticDraw } } 5 [] =
      ({ toBuffer := { ID := 1, Target := BufferTarget.ArrayBuffer, Size := 4,
                       Usage := BufferUsage.StaticDraw } }, Except.ok []) :=
  ⟨by decide,
   typed_updates_empty_noop.2.2.2 _ 5 (by decide),
   typed_updates_empty_noop.1 _ 5⟩

end GoGL
